import Mathlib

/-!
Verification of the color-ingestion pipeline of `semantic-search-colors`
(`src/script.ts`) against its specification.

The TypeScript source is shallowly embedded below.  JavaScript string
builtins used by the source (`split` with a one-character separator,
`startsWith`, `replace` with a one-character pattern) are modelled as
executable Lean functions on `String`.  The two external collaborators
(the OpenAI embedding client and the Supabase store) are modelled as an
explicit `World` of oracles: the embedding call may fail opaquely
(a provider/network error), and the store upsert may report an error for
a given record.  All externally observable behaviour of a run (the store
contents, console logs, delay calls, embedding requests) is threaded
through an explicit `RunState`.
-/

set_option maxRecDepth 4000

namespace SSC

/-! ## Models of the JavaScript string builtins used by the source -/

/-- Model of JS `String.prototype.split` with a one-character separator,
on the character list: splitting `""` yields `[[]]`, a trailing separator
yields a trailing empty field, exactly as in JavaScript. -/
def splitCharList (c : Char) : List Char → List (List Char)
  | [] => [[]]
  | x :: xs =>
      if x = c then [] :: splitCharList c xs
      else
        match splitCharList c xs with
        | [] => [[x]]
        | y :: ys => (x :: y) :: ys

/-- Model of JS `s.split(c)` for a one-character separator `c`
(the source only splits on `","` and `"\n"`). -/
def jsSplitChar (c : Char) (s : String) : List String :=
  (splitCharList c s.data).map String.mk

/-- Model of JS `s.startsWith(pre)`: `pre` is a prefix of `s`. -/
def jsStartsWith (s pre : String) : Bool :=
  pre.data.isPrefixOf s.data

/-- Remove the first occurrence of the character `c` from a character list. -/
def removeFirstChar (c : Char) : List Char → List Char
  | [] => []
  | x :: xs => if x = c then xs else x :: removeFirstChar c xs

/-- Model of JS `s.replace(c, "")` for a one-character pattern `c`:
JS `replace` with a string pattern replaces only the first occurrence
(the source uses `hex.replace("#", "")`). -/
def jsReplaceFirstChar (c : Char) (s : String) : String :=
  ⟨removeFirstChar c s.data⟩

/-! ## Data model -/

/-- Structure `RawColor` (source lines 20-24).  JS array destructuring
`const [name, hex, isGoodName] = rowText.split(",")` can leave `name` or
`hex` undefined when the line has fewer than the expected fields, so the
two string fields are modelled as `Option String` (`none` = undefined);
`is_good_name` is the result of `=== "x"`, always a boolean. -/
structure RawColor where
  name : Option String
  hex : Option String
  is_good_name : Bool
deriving Repr, DecidableEq

/-- Structure `PreppedColor` (source lines 55-60): the storage-ready record. -/
structure PreppedColor where
  name : String
  hex : String
  is_good_name : Bool
  embedding_openai_1536 : String
deriving Repr, DecidableEq

/-- Errors thrown inside the per-row pipeline:
* `typeError f`: the JS `TypeError` raised by reading `.length` of the
  undefined field `f` inside `validRawColor`;
* `validationError rc`: the `Error` thrown by `prepColorEntry` on an
  invalid record, carrying the offending record (the source interpolates
  `JSON.stringify(rawColor)` into the message);
* `providerError`: an opaque rejection of the embedding call. -/
inductive JsError where
  | typeError (field : String)
  | validationError (rawColor : RawColor)
  | providerError
deriving Repr, DecidableEq

/-- An error object reported by the store's upsert, kept opaque. -/
abbrev StoreErr := String

/-- The request body of `clientOpenai.embeddings.create` (source lines 34-38). -/
structure EmbeddingRequest where
  model : String
  input : String
  encoding_format : String
deriving Repr, DecidableEq

/-- All externally observable state of a run:
the store table, the console logs, the delay calls, the embedding
requests issued, and (ghost) the indices whose loop body ran. -/
structure RunState where
  /-- Rows of the Supabase `colors` table, upsert-keyed by `name`. -/
  store : List PreppedColor
  /-- The `console.log("Saved color entry", name)` events inside `saveColorEntry`. -/
  savedLogs : List String
  /-- The `console.error(error)` events inside `saveColorEntry` (no row position). -/
  persistErrors : List StoreErr
  /-- The `console.error("Error processing row " ++ pos, e)` events of the
  `catch` at the row boundary of `runFullScript`: `(pos, e)` with `pos = i + 1`. -/
  rowErrors : List (Nat × JsError)
  /-- The `delay` calls: `(pos, ms)` recorded as position `i + 1` and duration. -/
  pauses : List (Nat × Nat)
  /-- Requests issued to the embedding provider, in order. -/
  embedCalls : List EmbeddingRequest
  /-- Ghost instrumentation: 0-based indices whose loop body started. -/
  attempted : List Nat
deriving Repr, DecidableEq

/-- The state at the start of a run: empty store, no logs. -/
def initialState : RunState := ⟨[], [], [], [], [], [], []⟩

/-- The external world of a run, parametric in the provider's vector type
`Emb` (the pipeline only ever serializes vectors, never inspects them):
* `file`: contents of the CSV file read by `getColorRows`;
* `embed`: the provider's response per input text (`Except Unit` = opaque
  network/provider failure);
* `stringify`: `JSON.stringify` on an embedding vector;
* `upsertErr`: the `error` field the store returns for a given upsert. -/
structure World (Emb : Type) where
  file : String
  embed : String → Except Unit Emb
  stringify : Emb → String
  upsertErr : PreppedColor → Option StoreErr

/-! ## Pipeline functions (source lines 11-71) -/

/-- Function `readColorRow` (source lines 11-18): split on `","`, destructure the
first three fields, map the third to a boolean by `=== "x"`. -/
def readColorRow (rowText : String) : RawColor :=
  let fields := jsSplitChar ',' rowText
  { name := fields[0]?
    hex := fields[1]?
    is_good_name := fields[2]? == some "x" }

/-- JS property read of a possibly-undefined string field followed by a
`.length`/`.startsWith` access: throws `TypeError` on undefined. -/
def jsField (fieldName : String) : Option String → Except JsError String
  | some v => .ok v
  | none => .error (.typeError fieldName)

/-- Function `validRawColor` (source lines 26-31).  The three `const` bindings are
evaluated in source order, so an undefined `name` throws before `hex` is
read; `typeof rawColor.is_good_name === "boolean"` is identically `true`
in this typed embedding because the parser's `=== "x"` always produces a
boolean. -/
def validRawColor (rawColor : RawColor) : Except JsError Bool := do
  let name ← jsField "name" rawColor.name
  let validName := decide (name.length > 0) && decide (name.length < 100)
  let hex ← jsField "hex" rawColor.hex
  let validHex := decide (hex.length = 7) && jsStartsWith hex "#"
  let validIsGoodName := true
  return validName && validHex && validIsGoodName

/-- The name-and-hex-only validation verdict: `validRawColor` with the
(vacuous) flag-type check dropped.  Used to state that the verdict
depends only on the `name` and `hex` fields. -/
def validNameHexOnly (name hex : Option String) : Except JsError Bool := do
  let n ← jsField "name" name
  let validName := decide (n.length > 0) && decide (n.length < 100)
  let h ← jsField "hex" hex
  let validHex := decide (h.length = 7) && jsStartsWith h "#"
  return validName && validHex

/-- Function `getEmbedding` (source lines 33-40): issue one request with the
pinned model id and encoding format; the response (or an opaque
provider failure) comes from the world. -/
def getEmbedding {Emb : Type} (w : World Emb) (inputText : String)
    (s : RunState) : Except JsError Emb × RunState :=
  ((w.embed inputText).mapError fun _ => .providerError,
   { s with embedCalls :=
       s.embedCalls ++ [⟨"text-embedding-3-small", inputText, "float"⟩] })

/-- Function `prepColorEntry` (source lines 42-53): throw on invalid record, fetch
the embedding of the name, strip the first `#` from the hex, serialize
the vector.  The final catch-all branch is unreachable: validation only
succeeds when both fields are defined. -/
def prepColorEntry {Emb : Type} (w : World Emb) (rawColor : RawColor)
    (s : RunState) : Except JsError PreppedColor × RunState :=
  match validRawColor rawColor with
  | .error e => (.error e, s)
  | .ok false => (.error (.validationError rawColor), s)
  | .ok true =>
      match rawColor.name, rawColor.hex with
      | some name, some hex =>
          let r := getEmbedding w name s
          match r.1 with
          | .error e => (.error e, r.2)
          | .ok embeddingSmall =>
              (.ok { name := name
                     hex := jsReplaceFirstChar '#' hex
                     is_good_name := rawColor.is_good_name
                     embedding_openai_1536 := w.stringify embeddingSmall }, r.2)
      | _, _ => (.error (.typeError "unreachable"), s)

/-- Supabase `upsert` with `onConflict: "name"`: overwrite the row with
the same name, otherwise append. -/
def upsertByName (store : List PreppedColor) (p : PreppedColor) :
    List PreppedColor :=
  if store.any (fun q => q.name == p.name) then
    store.map (fun q => if q.name == p.name then p else q)
  else store ++ [p]

/-- Function `saveColorEntry` (source lines 62-71): if the upsert reports an
error, it is logged right there (`console.error(error)`, without any row
position) and the function returns normally — it never throws; on
success the store row is written and the save is logged. -/
def saveColorEntry {Emb : Type} (w : World Emb) (preppedColor : PreppedColor)
    (s : RunState) : RunState :=
  match w.upsertErr preppedColor with
  | some error => { s with persistErrors := s.persistErrors ++ [error] }
  | none =>
      { s with store := upsertByName s.store preppedColor
               savedLogs := s.savedLogs ++ [preppedColor.name] }

/-! ## Batch driver (source lines 140-179) -/

/-- Function `getColorRows` (source lines 140-150): split the file on newlines,
drop the header when requested, and apply the cap through JS truthiness:
`maxRows ? contentRows.slice(0, maxRows) : contentRows`, so an absent
cap — and also a cap of `0`, which is falsy — leaves the list uncapped. -/
def getColorRows (file : String) (omitHeader : Bool) (maxRows : Option Nat) :
    List String :=
  let rows := jsSplitChar '\n' file
  let contentRows := if omitHeader then rows.drop 1 else rows
  match maxRows with
  | some m => if m != 0 then contentRows.take m else contentRows
  | none => contentRows

/-- The expression `startRow || 0` from the loop header of `runFullScript`. -/
def startIdx : Option Nat → Nat
  | some n => n
  | none => 0

/-- One iteration of the `for` loop of `runFullScript` (source lines
158-176): inside `try`, parse, prep, save, then pause 200 every time
`(i + 1) % 10 == 0`; the `catch` logs the thrown error with the row
position `i + 1` and continues.  `saveColorEntry` never throws, so the
pause check is reached whenever `prepColorEntry` succeeds. -/
def processRow {Emb : Type} (w : World Emb) (colorRows : List String)
    (i : Nat) (s : RunState) : RunState :=
  match colorRows[i]? with
  | none => s
  | some row =>
      let s0 := { s with attempted := s.attempted ++ [i] }
      let pr := prepColorEntry w (readColorRow row) s0
      match pr.1 with
      | .error e => { pr.2 with rowErrors := pr.2.rowErrors ++ [(i + 1, e)] }
      | .ok preppedColor =>
          let s2 := saveColorEntry w preppedColor pr.2
          if (i + 1) % 10 == 0 then
            { s2 with pauses := s2.pauses ++ [(i + 1, 200)] }
          else s2

/-- The `for (let i = startRow || 0; i < colorRows.length; i++)` loop. -/
def runRows {Emb : Type} (w : World Emb) (colorRows : List String)
    (start : Nat) (s : RunState) : RunState :=
  (List.range' start (colorRows.length - start)).foldl
    (fun acc i => processRow w colorRows i acc) s

/-- Function `runFullScript` (source lines 154-179): load the bounded row list
(header omitted, cap applied) and run the loop from the start offset. -/
def runFullScript {Emb : Type} (w : World Emb)
    (maxRows startRow : Option Nat) : RunState :=
  let colorRows := getColorRows w.file true maxRows
  runRows w colorRows (startIdx startRow) initialState

/-- The `Except` outcome of the per-row pipeline on one raw line
(state-independent, see `prepColorEntry_spec`). -/
def rowPipeline {Emb : Type} (w : World Emb) (row : String) :
    Except JsError PreppedColor :=
  (prepColorEntry w (readColorRow row) initialState).1


/-! ## Concrete worlds used to evaluate the driver on closed runs -/

/-- Equality of `Except` outcomes is decidable when both components are. -/
instance instDecEqExcept {e a : Type} [DecidableEq e] [DecidableEq a] :
    DecidableEq (Except e a)
  | .error x, .error y =>
      if h : x = y then .isTrue (by rw [h]) else .isFalse (by simp [h])
  | .error _, .ok _ => .isFalse (by simp)
  | .ok _, .error _ => .isFalse (by simp)
  | .ok x, .ok y =>
      if h : x = y then .isTrue (by rw [h]) else .isFalse (by simp [h])

/-- A world whose embedding provider always succeeds (vectors are opaque,
serialized as `"[0]"`), with a chosen file and upsert behaviour. -/
def mkWorld (file : String) (upsertErr : PreppedColor → Option StoreErr) :
    World Unit :=
  { file := file
    embed := fun _ => .ok ()
    stringify := fun _ => "[0]"
    upsertErr := upsertErr }

/-- One valid data row, and a store whose upsert always reports an error. -/
def worldC1 : World Unit :=
  mkWorld "name,hex,good\nRed,#ff0000,x" (fun _ => some "upsert failed")

/-- A header plus 25 valid data rows. -/
def file25 : String :=
  "name,hex,good\nc01,#aabbcc,x\nc02,#aabbcc,x\nc03,#aabbcc,x\nc04,#aabbcc,x\nc05,#aabbcc,x\nc06,#aabbcc,x\nc07,#aabbcc,x\nc08,#aabbcc,x\nc09,#aabbcc,x\nc10,#aabbcc,x\nc11,#aabbcc,x\nc12,#aabbcc,x\nc13,#aabbcc,x\nc14,#aabbcc,x\nc15,#aabbcc,x\nc16,#aabbcc,x\nc17,#aabbcc,x\nc18,#aabbcc,x\nc19,#aabbcc,x\nc20,#aabbcc,x\nc21,#aabbcc,x\nc22,#aabbcc,x\nc23,#aabbcc,x\nc24,#aabbcc,x\nc25,#aabbcc,x"

/-- 25 valid rows, a provider and a store that always succeed. -/
def world25 : World Unit := mkWorld file25 (fun _ => none)

/-- A header plus 10 data rows of which the 10th has an empty name and so
fails validation. -/
def fileC2 : String :=
  "name,hex,good\nc01,#aabbcc,x\nc02,#aabbcc,x\nc03,#aabbcc,x\nc04,#aabbcc,x\nc05,#aabbcc,x\nc06,#aabbcc,x\nc07,#aabbcc,x\nc08,#aabbcc,x\nc09,#aabbcc,x\n,#aabbcc,x"

/-- Ten rows whose 10th fails validation; provider and store succeed. -/
def worldC2 : World Unit := mkWorld fileC2 (fun _ => none)

/-- Two valid data rows, everything succeeds. -/
def worldC3 : World Unit :=
  mkWorld "name,hex,good\nRed,#ff0000,x\nBlue,#0000ff,x" (fun _ => none)

/-- One valid data row, and a store whose upsert always reports an error. -/
def worldC4 : World Unit :=
  mkWorld "name,hex,good\nBlue,#0000ff,x" (fun _ => some "db down")

/-- One valid data row, everything succeeds. -/
def worldC5 : World Unit :=
  mkWorld "name,hex,good\nRed,#ff0000,x" (fun _ => none)

/-! ## Helper lemmas -/

theorem option_beq_some (x y : String) : (some x == some y) = (x == y) := rfl

theorem splitCharList_ne_nil (c : Char) (l : List Char) :
    splitCharList c l ≠ [] := by
  induction l with
  | nil => simp [splitCharList]
  | cons x xs ih =>
      simp only [splitCharList]
      split
      · simp
      · split
        · simp
        · simp

theorem validRawColor_some (n h : String) (b : Bool) :
    validRawColor ⟨some n, some h, b⟩ =
      .ok (((decide (n.length > 0) && decide (n.length < 100)) &&
            (decide (h.length = 7) && jsStartsWith h "#")) && true) := by
  unfold validRawColor jsField
  simp only [Bind.bind, Except.bind, pure, Except.pure]

theorem validRawColor_none_name (h : Option String) (b : Bool) :
    validRawColor ⟨none, h, b⟩ = .error (.typeError "name") := by
  unfold validRawColor jsField
  simp only [Bind.bind, Except.bind]

theorem validRawColor_none_hex (n : String) (b : Bool) :
    validRawColor ⟨some n, none, b⟩ = .error (.typeError "hex") := by
  unfold validRawColor jsField
  simp only [Bind.bind, Except.bind]

theorem jsStartsWith_hash_iff (s : String) :
    jsStartsWith s "#" = true ↔ ∃ t, s.data = '#' :: t := by
  unfold jsStartsWith
  have hd : ("#" : String).data = ['#'] := rfl
  rw [hd]
  cases hs : s.data with
  | nil => simp [List.isPrefixOf]
  | cons x xs =>
      simp only [List.isPrefixOf, List.isPrefixOf_nil_left, Bool.and_true]
      constructor
      · intro hbeq
        exact ⟨xs, by rw [beq_iff_eq] at hbeq; rw [hbeq]⟩
      · rintro ⟨t, ht⟩
        injection ht with h1 h2
        simp [h1]

theorem validRawColor_error_typeError (rc : RawColor) (e : JsError)
    (h : validRawColor rc = .error e) : ∃ f, e = .typeError f := by
  obtain ⟨n, hx, b⟩ := rc
  cases n with
  | none =>
      rw [validRawColor_none_name] at h
      exact ⟨"name", by simpa using h.symm⟩
  | some nm =>
      cases hx with
      | none =>
          rw [validRawColor_none_hex] at h
          exact ⟨"hex", by simpa using h.symm⟩
      | some hxv =>
          rw [validRawColor_some] at h
          exact absurd h (by simp)

/-- Lemma: `prepColorEntry` touches only `embedCalls` in the state, and its
`Except` outcome does not depend on the incoming state. -/
theorem prepColorEntry_spec (Emb : Type) (w : World Emb) (rc : RawColor)
    (s : RunState) :
    ((prepColorEntry w rc s).2).store = s.store ∧
    ((prepColorEntry w rc s).2).savedLogs = s.savedLogs ∧
    ((prepColorEntry w rc s).2).persistErrors = s.persistErrors ∧
    ((prepColorEntry w rc s).2).rowErrors = s.rowErrors ∧
    ((prepColorEntry w rc s).2).pauses = s.pauses ∧
    ((prepColorEntry w rc s).2).attempted = s.attempted ∧
    (prepColorEntry w rc s).1 = (prepColorEntry w rc initialState).1 := by
  unfold prepColorEntry getEmbedding
  cases hv : validRawColor rc with
  | error e => simp
  | ok b =>
      cases b with
      | false => simp
      | true =>
          cases hn : rc.name with
          | none => cases hh : rc.hex <;> simp
          | some nm =>
              cases hh : rc.hex with
              | none => simp
              | some hx => cases he : w.embed nm <;> simp [he, Except.mapError]

/-- Lemma: `saveColorEntry` touches only `store`, `savedLogs` and `persistErrors`. -/
theorem saveColorEntry_frame (Emb : Type) (w : World Emb) (p : PreppedColor)
    (s : RunState) :
    (saveColorEntry w p s).rowErrors = s.rowErrors ∧
    (saveColorEntry w p s).pauses = s.pauses ∧
    (saveColorEntry w p s).embedCalls = s.embedCalls ∧
    (saveColorEntry w p s).attempted = s.attempted := by
  unfold saveColorEntry
  cases w.upsertErr p <;> simp

/-- An in-bounds loop iteration appends exactly its index to `attempted`. -/
theorem processRow_attempted_lt (Emb : Type) (w : World Emb)
    (rows : List String) (i : Nat) (s : RunState) (hi : i < rows.length) :
    (processRow w rows i s).attempted = s.attempted ++ [i] := by
  unfold processRow
  rw [List.getElem?_eq_getElem hi]
  simp only
  set s0 : RunState := { s with attempted := s.attempted ++ [i] } with hs0
  have hprep := prepColorEntry_spec Emb w (readColorRow rows[i]) s0
  cases hp : (prepColorEntry w (readColorRow rows[i]) s0).1 with
  | error e =>
      simp only [hp]
      have := hprep.2.2.2.2.2.1
      simp [this, hs0]
  | ok p =>
      simp only [hp]
      have hsave := saveColorEntry_frame Emb w p (prepColorEntry w (readColorRow rows[i]) s0).2
      split
      · simp [hsave.2.2.2, hprep.2.2.2.2.2.1, hs0]
      · simp [hsave.2.2.2, hprep.2.2.2.2.2.1, hs0]

/-- Folding the loop body over in-bounds indices appends them all to
`attempted`: no iteration is skipped, whatever the outcomes. -/
theorem foldl_attempted (Emb : Type) (w : World Emb) (rows : List String) :
    ∀ (L : List Nat) (s : RunState), (∀ i ∈ L, i < rows.length) →
      ((L.foldl (fun acc i => processRow w rows i acc) s).attempted =
        s.attempted ++ L) := by
  intro L
  induction L with
  | nil => intro s _; simp
  | cons i L ih =>
      intro s h
      simp only [List.foldl_cons]
      rw [ih _ fun j hj => h j (List.mem_cons_of_mem i hj)]
      rw [processRow_attempted_lt Emb w rows i s (h i (List.mem_cons_self i L))]
      simp

/-- The driver attempts exactly the indices from the start offset to the
end of the bounded row list. -/
theorem runFullScript_attempted (Emb : Type) (w : World Emb)
    (maxRows startRow : Option Nat) :
    (runFullScript w maxRows startRow).attempted =
      List.range' (startIdx startRow)
        ((getColorRows w.file true maxRows).length - startIdx startRow) := by
  unfold runFullScript runRows
  set rows := getColorRows w.file true maxRows
  set st := startIdx startRow
  have hmem : ∀ i ∈ List.range' st (rows.length - st), i < rows.length := by
    intro i hi
    rw [List.mem_range'_1] at hi
    omega
  rw [foldl_attempted Emb w rows _ initialState hmem]
  simp [initialState]

/-- Each iteration either leaves `pauses` unchanged or appends one pause
of 200 at a position divisible by 10. -/
theorem processRow_pauses (Emb : Type) (w : World Emb) (rows : List String)
    (i : Nat) (s : RunState) :
    (processRow w rows i s).pauses = s.pauses ∨
    ((i + 1) % 10 = 0 ∧
      (processRow w rows i s).pauses = s.pauses ++ [(i + 1, 200)]) := by
  unfold processRow
  cases hrow : rows[i]? with
  | none => left; rfl
  | some row =>
      simp only
      set s0 : RunState := { s with attempted := s.attempted ++ [i] } with hs0
      have hprep := prepColorEntry_spec Emb w (readColorRow row) s0
      cases hp : (prepColorEntry w (readColorRow row) s0).1 with
      | error e =>
          left
          simp only [hp]
          simpa [hs0] using hprep.2.2.2.2.1
      | ok p =>
          simp only [hp]
          have hsave := saveColorEntry_frame Emb w p
            (prepColorEntry w (readColorRow row) s0).2
          have hpp : (saveColorEntry w p
              (prepColorEntry w (readColorRow row) s0).2).pauses = s.pauses := by
            rw [hsave.2.1]
            simpa [hs0] using hprep.2.2.2.2.1
          split
          · right
            constructor
            · rename_i hmod
              simpa using hmod
            · simp [hpp]
          · left
            exact hpp

/-- Every pause of a run has duration 200 and happens at a position
divisible by 10. -/
theorem runFullScript_pauses_shape (Emb : Type) (w : World Emb)
    (maxRows startRow : Option Nat) (q : Nat × Nat)
    (hq : q ∈ (runFullScript w maxRows startRow).pauses) :
    q.1 % 10 = 0 ∧ q.2 = 200 := by
  unfold runFullScript runRows at hq
  set rows := getColorRows w.file true maxRows
  set st := startIdx startRow
  have main : ∀ (L : List Nat) (s : RunState),
      (∀ p ∈ s.pauses, p.1 % 10 = 0 ∧ p.2 = 200) →
      ∀ p ∈ (L.foldl (fun acc i => processRow w rows i acc) s).pauses,
        p.1 % 10 = 0 ∧ p.2 = 200 := by
    intro L
    induction L with
    | nil => intro s hs p hp; exact hs p hp
    | cons i L ih =>
        intro s hs p hp
        simp only [List.foldl_cons] at hp
        refine ih (processRow w rows i s) ?_ p hp
        intro r hr
        rcases processRow_pauses Emb w rows i s with hcase | ⟨hmod, hcase⟩
        · rw [hcase] at hr; exact hs r hr
        · rw [hcase] at hr
          rcases List.mem_append.mp hr with hr1 | hr2
          · exact hs r hr1
          · simp at hr2
            rw [hr2]
            exact ⟨hmod, rfl⟩
  exact main _ initialState (by simp [initialState]) q hq

/-- A thrown pipeline error is caught at the row boundary: the store and
the save log are untouched and the error is logged with position `i + 1`. -/
theorem processRow_error (Emb : Type) (w : World Emb) (rows : List String)
    (i : Nat) (row : String) (s : RunState) (e : JsError)
    (hrow : rows[i]? = some row) (he : rowPipeline w row = .error e) :
    (processRow w rows i s).store = s.store ∧
    (processRow w rows i s).rowErrors = s.rowErrors ++ [(i + 1, e)] ∧
    (processRow w rows i s).savedLogs = s.savedLogs := by
  unfold processRow
  rw [hrow]
  simp only
  set s0 : RunState := { s with attempted := s.attempted ++ [i] } with hs0
  have hprep := prepColorEntry_spec Emb w (readColorRow row) s0
  have hfst : (prepColorEntry w (readColorRow row) s0).1 = .error e := by
    rw [hprep.2.2.2.2.2.2]
    exact he
  rw [hfst]
  simp only
  refine ⟨?_, ?_, ?_⟩
  · simpa [hs0] using hprep.1
  · rw [hprep.2.2.2.1]
  · simpa [hs0] using hprep.2.1

/-- When the pipeline succeeds for a row, nothing is logged at the row
boundary — in particular a store-reported upsert error never is. -/
theorem processRow_ok_rowErrors (Emb : Type) (w : World Emb)
    (rows : List String) (i : Nat) (row : String) (s : RunState)
    (p : PreppedColor) (hrow : rows[i]? = some row)
    (hp : rowPipeline w row = .ok p) :
    (processRow w rows i s).rowErrors = s.rowErrors := by
  unfold processRow
  rw [hrow]
  simp only
  set s0 : RunState := { s with attempted := s.attempted ++ [i] } with hs0
  have hprep := prepColorEntry_spec Emb w (readColorRow row) s0
  have hfst : (prepColorEntry w (readColorRow row) s0).1 = .ok p := by
    rw [hprep.2.2.2.2.2.2]
    exact hp
  rw [hfst]
  simp only
  have hsave := saveColorEntry_frame Emb w p
    (prepColorEntry w (readColorRow row) s0).2
  have hre : (saveColorEntry w p
      (prepColorEntry w (readColorRow row) s0).2).rowErrors = s.rowErrors := by
    rw [hsave.1, hprep.2.2.2.1]
  split
  · simp [hre]
  · exact hre

/-- When the pipeline succeeds for a row whose position `i + 1` is a
multiple of 10, the 200-unit pause is taken. -/
theorem processRow_ok_pause (Emb : Type) (w : World Emb)
    (rows : List String) (i : Nat) (row : String) (s : RunState)
    (p : PreppedColor) (hrow : rows[i]? = some row)
    (hp : rowPipeline w row = .ok p) (hmod : (i + 1) % 10 = 0) :
    (processRow w rows i s).pauses = s.pauses ++ [(i + 1, 200)] := by
  unfold processRow
  rw [hrow]
  simp only
  set s0 : RunState := { s with attempted := s.attempted ++ [i] } with hs0
  have hprep := prepColorEntry_spec Emb w (readColorRow row) s0
  have hfst : (prepColorEntry w (readColorRow row) s0).1 = .ok p := by
    rw [hprep.2.2.2.2.2.2]
    exact hp
  rw [hfst]
  simp only
  have hsave := saveColorEntry_frame Emb w p
    (prepColorEntry w (readColorRow row) s0).2
  have hpa : (saveColorEntry w p
      (prepColorEntry w (readColorRow row) s0).2).pauses = s.pauses := by
    rw [hsave.2.1, hprep.2.2.2.2.1]
  have hcond : ((i + 1) % 10 == 0) = true := by simpa using hmod
  rw [if_pos hcond]
  simp [hpa]

/-! ## The claims -/

/-- Claim C1, amended.  Thrown per-row failures (parsing, validation and
embedding errors — the stages that raise) are caught at the row boundary
of `runFullScript`: the store and the save log are untouched for that row
and the error is logged with the row's position; and whatever the
failures, the driver attempts every index of the bounded row list from
the start offset onward, so no single-row failure aborts the batch.  The
original claim also asserted this boundary handling for persistence
failures, which the code instead consumes inside `saveColorEntry` (see
the counterexample). -/
theorem thrown_row_failures_isolated (Emb : Type) (w : World Emb)
    (maxRows startRow : Option Nat) (rows : List String) (i : Nat)
    (row : String) (s : RunState) (e : JsError)
    (hrow : rows[i]? = some row) (he : rowPipeline w row = .error e) :
    ((runFullScript w maxRows startRow).attempted =
      List.range' (startIdx startRow)
        ((getColorRows w.file true maxRows).length - startIdx startRow)) ∧
    ((processRow w rows i s).store = s.store ∧
      (processRow w rows i s).rowErrors = s.rowErrors ++ [(i + 1, e)] ∧
      (processRow w rows i s).savedLogs = s.savedLogs) :=
  ⟨runFullScript_attempted Emb w maxRows startRow,
   processRow_error Emb w rows i row s e hrow he⟩

/-- Claim C1, counterexample.  In a run whose single row is valid but
whose store upsert reports an error, the persistence failure is logged
inside `saveColorEntry` (`persistErrors`), while the row boundary catches
nothing (`rowErrors = []`): contrary to the claim, a persistence-stage
failure is not caught at the row's boundary. -/
theorem persist_failure_not_at_row_boundary :
    (runFullScript worldC1 none none).persistErrors = ["upsert failed"] ∧
    (runFullScript worldC1 none none).rowErrors = [] ∧
    (runFullScript worldC1 none none).store = [] ∧
    (runFullScript worldC1 none none).attempted = [0] := by decide

/-- Claim C1, witness: the amended theorem applied to a concrete world,
with the failing row `",#ff0000,x"` (empty name) at index 0. -/
theorem thrown_row_failures_isolated_witness :
    ((([",#ff0000,x"] : List String)[0]? = some ",#ff0000,x") ∧
      rowPipeline worldC1 ",#ff0000,x" =
        .error (.validationError ⟨some "", some "#ff0000", true⟩)) ∧
    ((runFullScript worldC1 none none).attempted =
      List.range' (startIdx none)
        ((getColorRows worldC1.file true none).length - startIdx none)) ∧
    ((processRow worldC1 [",#ff0000,x"] 0 initialState).store =
        initialState.store ∧
      (processRow worldC1 [",#ff0000,x"] 0 initialState).rowErrors =
        initialState.rowErrors ++
          [(0 + 1, .validationError ⟨some "", some "#ff0000", true⟩)] ∧
      (processRow worldC1 [",#ff0000,x"] 0 initialState).savedLogs =
        initialState.savedLogs) :=
  ⟨⟨by decide, by decide⟩,
   thrown_row_failures_isolated Unit worldC1 none none [",#ff0000,x"] 0
     ",#ff0000,x" initialState (.validationError ⟨some "", some "#ff0000", true⟩)
     (by decide) (by decide)⟩

/-- Claim C2, amended.  Every pause of any run lasts 200 units and
happens after a row position divisible by 10; a pause is taken after each
row whose position is a multiple of 10 and whose own pipeline completed
without a thrown error; and a batch of 25 valid rows with no failures
and no start offset pauses exactly twice, after rows 10 and 20, none
after row 25.  The original claim's "success and failure both count"
fails when the 10th-positioned row itself throws: the pause check sits
after the pipeline inside `try`, so that pause is skipped (see the
counterexample). -/
theorem pause_schedule (Emb : Type) (w : World Emb) (mr sr : Option Nat)
    (q : Nat × Nat) (rows : List String) (i : Nat) (row : String)
    (s : RunState) (p : PreppedColor)
    (hq : q ∈ (runFullScript w mr sr).pauses)
    (hrow : rows[i]? = some row) (hp : rowPipeline w row = .ok p)
    (hmod : (i + 1) % 10 = 0) :
    (runFullScript world25 none none).pauses = [(10, 200), (20, 200)] ∧
    (q.1 % 10 = 0 ∧ q.2 = 200) ∧
    (processRow w rows i s).pauses = s.pauses ++ [(i + 1, 200)] :=
  ⟨by decide, runFullScript_pauses_shape Emb w mr sr q hq,
   processRow_ok_pause Emb w rows i row s p hrow hp hmod⟩

/-- Claim C2, counterexample.  Ten rows are attempted, the 10th throws a
validation error, and no pause at all is taken — contrary to the claim
that after every 10 attempted rows (success or failure) the driver
pauses. -/
theorem no_pause_when_tenth_row_fails :
    (runFullScript worldC2 none none).attempted.length = 10 ∧
    (runFullScript worldC2 none none).rowErrors =
      [(10, .validationError ⟨some "", some "#aabbcc", true⟩)] ∧
    (runFullScript worldC2 none none).pauses = [] := by decide

/-- Claim C2, witness: the amended theorem applied to the 25-valid-row
world, at the pause `(10, 200)` and at the successful row of index 9. -/
theorem pause_schedule_witness :
    ((10, 200) ∈ (runFullScript world25 none none).pauses ∧
      (getColorRows world25.file true none)[9]? = some "c10,#aabbcc,x" ∧
      rowPipeline world25 "c10,#aabbcc,x" = .ok ⟨"c10", "aabbcc", true, "[0]"⟩ ∧
      (9 + 1) % 10 = 0) ∧
    ((runFullScript world25 none none).pauses = [(10, 200), (20, 200)] ∧
      ((10, 200).1 % 10 = 0 ∧ (10, 200).2 = 200) ∧
      (processRow world25 (getColorRows world25.file true none) 9
          initialState).pauses = initialState.pauses ++ [(9 + 1, 200)]) :=
  ⟨⟨by decide, by decide, by decide, by decide⟩,
   pause_schedule Unit world25 none none (10, 200)
     (getColorRows world25.file true none) 9 "c10,#aabbcc,x" initialState
     ⟨"c10", "aabbcc", true, "[0]"⟩ (by decide) (by decide) (by decide)
     (by decide)⟩

/-- Claim C3, amended.  For a maximum row count `m ≥ 1` the driver
attempts at most `m` rows.  The original claim included `m = 0`, but `0`
is falsy in JavaScript, so `maxRows ? contentRows.slice(0, maxRows) :
contentRows` applies no cap at all for a cap of 0 and every row is
attempted (see the counterexample). -/
theorem cap_bounds_attempts (Emb : Type) (w : World Emb) (m : Nat)
    (sr : Option Nat) (hm : 1 ≤ m) :
    (runFullScript w (some m) sr).attempted.length ≤ m := by
  rw [runFullScript_attempted Emb w (some m) sr]
  rw [List.length_range']
  have hlen : (getColorRows w.file true (some m)).length ≤ m := by
    have h0 : m ≠ 0 := by omega
    simp [getColorRows, List.length_take, bne_iff_ne, h0]
  omega

/-- Claim C3, counterexample.  With a cap of 0 over a 2-row file, both
rows are attempted — not zero as the claim requires. -/
theorem cap_zero_attempts_all_rows :
    (runFullScript worldC3 (some 0) none).attempted.length = 2 ∧
    ¬ ((runFullScript worldC3 (some 0) none).attempted.length ≤ 0) := by decide

/-- Claim C3, witness: the amended theorem applied at cap 1 over the
2-row world. -/
theorem cap_bounds_attempts_witness :
    1 ≤ 1 ∧ (runFullScript worldC3 (some 1) none).attempted.length ≤ 1 :=
  ⟨by decide, cap_bounds_attempts Unit worldC3 1 none (by decide)⟩

/-- Claim C4, amended.  A store-reported upsert error never propagates
out of the persistence step: `saveColorEntry` logs it right there
(without any row position) and returns normally, leaving the store and
the save log untouched; consequently nothing is caught or logged at the
row boundary for such a row.  The original claim said the error
propagates and is caught at the single-row boundary and logged with the
row's position, which the code contradicts (see the counterexample). -/
theorem upsert_error_contained_in_save (Emb : Type) (w : World Emb)
    (p : PreppedColor) (s : RunState) (e : StoreErr) (rows : List String)
    (i : Nat) (row : String)
    (he : w.upsertErr p = some e)
    (hrow : rows[i]? = some row) (hp : rowPipeline w row = .ok p) :
    (saveColorEntry w p s = { s with persistErrors := s.persistErrors ++ [e] }) ∧
    (processRow w rows i s).rowErrors = s.rowErrors := by
  constructor
  · unfold saveColorEntry
    rw [he]
  · exact processRow_ok_rowErrors Emb w rows i row s p hrow hp

/-- Claim C4, counterexample.  A run whose only row is valid but whose
upsert reports an error logs the error inside the persistence step and
nothing at the row boundary — the error did not propagate to the
single-row catch and carries no row position. -/
theorem upsert_error_logged_without_row_position :
    (runFullScript worldC4 none none).persistErrors = ["db down"] ∧
    (runFullScript worldC4 none none).rowErrors = [] ∧
    (runFullScript worldC4 none none).savedLogs = [] := by decide

/-- Claim C4, witness: the amended theorem applied to a concrete failing
upsert of the record parsed from `"Blue,#0000ff,x"`. -/
theorem upsert_error_contained_in_save_witness :
    (worldC4.upsertErr ⟨"Blue", "0000ff", true, "[0]"⟩ = some "db down" ∧
      (["Blue,#0000ff,x"] : List String)[0]? = some "Blue,#0000ff,x" ∧
      rowPipeline worldC4 "Blue,#0000ff,x" = .ok ⟨"Blue", "0000ff", true, "[0]"⟩) ∧
    ((saveColorEntry worldC4 ⟨"Blue", "0000ff", true, "[0]"⟩ initialState =
        { initialState with
            persistErrors := initialState.persistErrors ++ ["db down"] }) ∧
      (processRow worldC4 ["Blue,#0000ff,x"] 0 initialState).rowErrors =
        initialState.rowErrors) :=
  ⟨⟨by decide, by decide, by decide⟩,
   upsert_error_contained_in_save Unit worldC4 ⟨"Blue", "0000ff", true, "[0]"⟩
     initialState "db down" ["Blue,#0000ff,x"] 0 "Blue,#0000ff,x"
     (by decide) (by decide) (by decide)⟩

/-- Claim C5.  For every record accepted by validation, `prepColorEntry`
produces a 6-character hex, and prefixing it with the `#` marker
reproduces the record's original 7-character hex string exactly. -/
theorem prep_hex_roundtrip (Emb : Type) (w : World Emb) (rc : RawColor)
    (hx : String) (s s' : RunState) (p : PreppedColor)
    (hhex : rc.hex = some hx)
    (h : prepColorEntry w rc s = (.ok p, s')) :
    "#" ++ p.hex = hx ∧ p.hex.length = 6 := by
  obtain ⟨nmo, hxo, b⟩ := rc
  simp only at hhex
  subst hhex
  unfold prepColorEntry at h
  cases hv : validRawColor ⟨nmo, some hx, b⟩ with
  | error e => rw [hv] at h; simp at h
  | ok bv =>
      cases bv with
      | false => rw [hv] at h; simp at h
      | true =>
          rw [hv] at h
          cases nmo with
          | none => rw [validRawColor_none_name] at hv; simp at hv
          | some nm =>
              simp only at h
              cases hemb : w.embed nm with
              | error u =>
                  simp [getEmbedding, hemb, Except.mapError] at h
              | ok v =>
                  simp only [getEmbedding, hemb, Except.mapError] at h
                  have hp : p = ⟨nm, jsReplaceFirstChar '#' hx, b, w.stringify v⟩ := by
                    have := congrArg Prod.fst h
                    simp at this
                    exact this.symm
                  subst hp
                  rw [validRawColor_some] at hv
                  simp only [Except.ok.injEq, Bool.and_true, Bool.and_eq_true,
                    decide_eq_true_eq] at hv
                  obtain ⟨-, hlen, hsw⟩ := hv
                  obtain ⟨t, ht⟩ := (jsStartsWith_hash_iff hx).mp hsw
                  obtain ⟨d⟩ := hx
                  simp only at ht
                  subst ht
                  constructor
                  · rfl
                  · simp only [String.length] at hlen ⊢
                    simp [jsReplaceFirstChar, removeFirstChar]
                    simpa using hlen

/-- Claim C5, witness: the round trip evaluated on the validated record
`{name := "Red", hex := "#ff0000"}`. -/
theorem prep_hex_roundtrip_witness :
    (((⟨some "Red", some "#ff0000", true⟩ : RawColor).hex = some "#ff0000") ∧
      prepColorEntry worldC5 ⟨some "Red", some "#ff0000", true⟩ initialState =
        (.ok ⟨"Red", "ff0000", true, "[0]"⟩,
          ⟨[], [], [], [], [], [⟨"text-embedding-3-small", "Red", "float"⟩], []⟩)) ∧
    ("#" ++ (⟨"Red", "ff0000", true, "[0]"⟩ : PreppedColor).hex = "#ff0000" ∧
      (⟨"Red", "ff0000", true, "[0]"⟩ : PreppedColor).hex.length = 6) :=
  ⟨⟨by decide, by decide⟩,
   prep_hex_roundtrip Unit worldC5 ⟨some "Red", some "#ff0000", true⟩ "#ff0000"
     initialState ⟨[], [], [], [], [], [⟨"text-embedding-3-small", "Red", "float"⟩], []⟩
     ⟨"Red", "ff0000", true, "[0]"⟩ (by decide) (by decide)⟩

/-- Claim C6.  Validation accepts a candidate record (both string fields
present, as the declared record type promises) exactly when the name has
length at least 1 and below 100 and the hex has length exactly 7 and
starts with the `#` character; the flag-type check is identically true in
this typed embedding.  In particular a name of length 0 or at least 100,
or a hex not of length 7 or not starting with `#`, is rejected. -/
theorem validRawColor_accepts_iff (n h : String) (b : Bool) :
    validRawColor ⟨some n, some h, b⟩ = .ok true ↔
      (1 ≤ n.length ∧ n.length < 100 ∧ h.length = 7 ∧
        ∃ t, h.data = '#' :: t) := by
  rw [validRawColor_some]
  simp only [Except.ok.injEq, Bool.and_true, Bool.and_eq_true,
    decide_eq_true_eq, ← jsStartsWith_hash_iff]
  constructor
  · rintro ⟨⟨h1, h2⟩, h3, h4⟩
    exact ⟨h1, h2, h3, h4⟩
  · rintro ⟨h1, h2, h3, h4⟩
    exact ⟨⟨h1, h2⟩, h3, h4⟩

/-- Claim C7.  On every raw line with exactly three comma-separated
fields, `readColorRow` is total and deterministic (it is a function) and
returns the record whose name is the first field, whose hex is the
second (marker still attached), and whose flag is true exactly when the
third field equals the marker token `"x"`. -/
theorem readColorRow_three_fields (line a b c : String)
    (h : jsSplitChar ',' line = [a, b, c]) :
    readColorRow line = ⟨some a, some b, c == "x"⟩ := by
  simp [readColorRow, h, option_beq_some]

/-- Claim C7, witness: the spec scenario `"Red,#ff0000,"`, whose flag
field mismatches the marker and yields a false flag. -/
theorem readColorRow_three_fields_witness :
    jsSplitChar ',' "Red,#ff0000," = ["Red", "#ff0000", ""] ∧
    readColorRow "Red,#ff0000," = ⟨some "Red", some "#ff0000", "" == "x"⟩ :=
  ⟨by decide,
   readColorRow_three_fields "Red,#ff0000," "Red" "#ff0000" "" (by decide)⟩

/-- Claim C8.  `prepColorEntry` fails with the validation error carrying
the offending record exactly when validation rejects it, and on that
failure the state is returned unchanged: no embedding request is issued
and the store is untouched for that record. -/
theorem prep_validation_gate (Emb : Type) (w : World Emb) (rc : RawColor)
    (s : RunState) :
    ((prepColorEntry w rc s).1 = .error (.validationError rc) ↔
      validRawColor rc = .ok false) ∧
    (validRawColor rc = .ok false →
      prepColorEntry w rc s = (.error (.validationError rc), s)) := by
  constructor
  · cases hv : validRawColor rc with
    | error e =>
        obtain ⟨f, hf⟩ := validRawColor_error_typeError rc e hv
        subst hf
        unfold prepColorEntry
        rw [hv]
        simp
    | ok bv =>
        cases bv with
        | false =>
            unfold prepColorEntry
            rw [hv]
            simp
        | true =>
            unfold prepColorEntry
            rw [hv]
            cases hn : rc.name with
            | none => simp
            | some nm =>
                cases hh : rc.hex with
                | none => simp
                | some hx =>
                    simp only
                    cases hemb : w.embed nm with
                    | error u => simp [getEmbedding, hemb, Except.mapError, hv]
                    | ok v => simp [getEmbedding, hemb, Except.mapError, hv]
  · intro hv
    unfold prepColorEntry
    rw [hv]

/-- Claim C8, witness: the gate evaluated on the empty-name record,
which validation rejects; the returned state is exactly the input state. -/
theorem prep_validation_gate_witness :
    validRawColor ⟨some "", some "#ff0000", true⟩ = .ok false ∧
    ((prepColorEntry worldC5 ⟨some "", some "#ff0000", true⟩ initialState).1 =
        .error (.validationError ⟨some "", some "#ff0000", true⟩) ↔
      validRawColor ⟨some "", some "#ff0000", true⟩ = .ok false) ∧
    prepColorEntry worldC5 ⟨some "", some "#ff0000", true⟩ initialState =
      (.error (.validationError ⟨some "", some "#ff0000", true⟩), initialState) :=
  ⟨by decide,
   (prep_validation_gate Unit worldC5 ⟨some "", some "#ff0000", true⟩ initialState).1,
   (prep_validation_gate Unit worldC5 ⟨some "", some "#ff0000", true⟩ initialState).2
     (by decide)⟩

/-- Claim C9.  The row parser is total on every input string: the name
field is always present (a split never returns an empty list); with more
than three fields the record is built from the first three only; with
one or two fields the missing fields are absent (`none`) and the flag is
false. -/
theorem readColorRow_total_any_field_count (line : String) :
    (readColorRow line).name.isSome = true ∧
    (∀ a b c rest, jsSplitChar ',' line = a :: b :: c :: rest →
        readColorRow line = ⟨some a, some b, c == "x"⟩) ∧
    (∀ a, jsSplitChar ',' line = [a] →
        readColorRow line = ⟨some a, none, false⟩) ∧
    (∀ a b, jsSplitChar ',' line = [a, b] →
        readColorRow line = ⟨some a, some b, false⟩) := by
  refine ⟨?_, ?_, ?_, ?_⟩
  · have hne := splitCharList_ne_nil ',' line.data
    cases hsp : splitCharList ',' line.data with
    | nil => exact absurd hsp hne
    | cons y ys => simp [readColorRow, jsSplitChar, hsp]
  · intro a b c rest h
    simp [readColorRow, h, option_beq_some]
  · intro a h
    simp [readColorRow, h]
  · intro a b h
    simp [readColorRow, h]

/-- Claim C9, witness: a four-field line keeps only its first three
fields, and a one-field line leaves hex absent with a false flag. -/
theorem readColorRow_total_any_field_count_witness :
    (jsSplitChar ',' "a,b,c,d" = "a" :: "b" :: "c" :: ["d"] ∧
      readColorRow "a,b,c,d" = ⟨some "a", some "b", "c" == "x"⟩) ∧
    (jsSplitChar ',' "solo" = ["solo"] ∧
      readColorRow "solo" = ⟨some "solo", none, false⟩) :=
  ⟨⟨by decide,
    (readColorRow_total_any_field_count "a,b,c,d").2.1 "a" "b" "c" ["d"]
      (by decide)⟩,
   ⟨by decide,
    (readColorRow_total_any_field_count "solo").2.2.1 "solo" (by decide)⟩⟩

/-- Claim C10.  For every parser-produced record the flag is a boolean by
construction, so the flag well-formedness check of validation is always
satisfied and the validation verdict factors through the name and hex
fields alone (`validNameHexOnly`). -/
theorem validation_ignores_flag_for_parsed_rows (line : String) :
    validRawColor (readColorRow line) =
      validNameHexOnly (readColorRow line).name (readColorRow line).hex := by
  rcases hrc : readColorRow line with ⟨nmo, hxo, b⟩
  cases nmo <;> cases hxo <;>
    simp [validRawColor, validNameHexOnly, jsField, Bind.bind, Except.bind,
      pure, Except.pure, Bool.and_true]

end SSC
